import Mathlib

/-!
Shallow embedding of the neophile version-reconciliation core
(lsst-sqre/neophile) together with theorems about its behaviour.

The embedding follows the Python sources under `src/neophile/`:

* `inventory/version.py` — `SemanticVersion` backed by `semver.VersionInfo`
  (parsing, comparison, `match` expressions);
* `analysis/helm.py` — `HelmAnalyzer._helm_needs_update`;
* `inventory/github.py` — `GitHubInventory.inventory`;
* `inventory/helm.py` — `CachedHelmInventory.inventory`;
* `update/{helm,kustomize,pre_commit,python}.py` — the `Update.apply`
  implementations;
* `analysis/python.py` — `PythonAnalyzer.analyze`;
* `processor.py` / `repository.py` — `Processor._process_one_repository`;
* `pr.py` — `PullRequester.make_pull_request`.

Strings are modelled as `List Char`; Python exceptions are modelled with
`Except`; file-system, subprocess and network effects are modelled as
explicit event traces.
-/

namespace Neophile

/-! ## Characters and numeric identifiers (semver grammar) -/

/-- Digit predicate `[0-9]`, as in the semver regular expression. -/
def isDigitC (c : Char) : Bool := '0' ≤ c && c ≤ '9'

/-- Identifier characters `[0-9A-Za-z-]` for prerelease/build identifiers. -/
def isIdentC (c : Char) : Bool :=
  isDigitC c || ('a' ≤ c && c ≤ 'z') || ('A' ≤ c && c ≤ 'Z') || c = '-'

/-- Decimal value of a digit string. -/
def digitsToNat (l : List Char) : Nat :=
  l.foldl (fun n c => 10 * n + (c.toNat - '0'.toNat)) 0

/-- Parse a semver numeric identifier, `0|[1-9]\d*`: the longest digit
prefix, rejected when empty or when it has a leading zero. Returns the
value and the unconsumed rest. -/
def parseNum (l : List Char) : Option (Nat × List Char) :=
  let ds := l.takeWhile isDigitC
  let rest := l.drop ds.length
  match ds with
  | [] => none
  | [c] => some (digitsToNat [c], rest)
  | c :: _ :: _ => if c = '0' then none else some (digitsToNat ds, rest)

/-- Split a character list on `'.'` (Python `str.split(".")`): always at
least one piece, empty pieces preserved. -/
def splitDotAux : List Char → List Char → List (List Char)
  | [], acc => [acc.reverse]
  | '.' :: rest, acc => acc.reverse :: splitDotAux rest []
  | c :: rest, acc => splitDotAux rest (c :: acc)

def splitDot (l : List Char) : List (List Char) := splitDotAux l []

/-- A valid prerelease identifier: nonempty, over `[0-9A-Za-z-]`, and a
purely numeric identifier has no leading zero (`0|[1-9]\d*`). -/
def validPreIdent (id : List Char) : Bool :=
  !id.isEmpty && id.all isIdentC &&
    (if id.all isDigitC then decide (id.length = 1) || decide (id.head? ≠ some '0')
     else true)

/-- A valid build identifier: nonempty over `[0-9A-Za-z-]`. -/
def validBuildIdent (id : List Char) : Bool :=
  !id.isEmpty && id.all isIdentC

/-! ## `semver.VersionInfo` -/

/-- The parsed form of a strict semantic version, mirroring
`semver.VersionInfo`. An absent prerelease (resp. build) is the empty
identifier list; the parser only ever produces nonempty lists for a
present `-`/`+` part. -/
structure VersionInfo where
  major : Nat
  minor : Nat
  patch : Nat
  prerelease : List (List Char)
  build : List (List Char)
deriving DecidableEq, Repr

/-- Parse the dot-separated build part (after `+`). -/
def parseBuild (b : List Char) : Option (List (List Char)) :=
  let ids := splitDot b
  if ids.all validBuildIdent then some ids else none

/-- Parse the optional `-prerelease` and `+build` suffix of a semver
string (everything after `major.minor.patch`). -/
def parseSuffix (r : List Char) : Option (List (List Char) × List (List Char)) :=
  match r with
  | [] => some ([], [])
  | '-' :: rest =>
    let pre := rest.takeWhile (fun c => c ≠ '+')
    let rest2 := rest.drop pre.length
    let ids := splitDot pre
    if ids.all validPreIdent then
      match rest2 with
      | [] => some (ids, [])
      | '+' :: b => (parseBuild b).map (fun bs => (ids, bs))
      | _ => none
    else none
  | '+' :: b => (parseBuild b).map (fun bs => (([] : List (List Char)), bs))
  | _ => none

/-- Embeds `semver.VersionInfo.parse`: strict `major.minor.patch[-pre][+build]`,
no `v` prefix, no leading zeros in numeric fields. `none` models the
`ValueError` the library raises on malformed input. -/
def parseVI (l : List Char) : Option VersionInfo :=
  match parseNum l with
  | none => none
  | some (maj, r1) =>
    match r1 with
    | '.' :: r2 =>
      match parseNum r2 with
      | none => none
      | some (mnr, r3) =>
        match r3 with
        | '.' :: r4 =>
          match parseNum r4 with
          | none => none
          | some (pat, r5) =>
            (parseSuffix r5).map (fun pb => ⟨maj, mnr, pat, pb.1, pb.2⟩)
        | _ => none
    | _ => none

/-- Embeds `semver.VersionInfo.isvalid`. -/
def viIsValid (l : List Char) : Bool := (parseVI l).isSome

/-- Three-way comparison on `Nat` (explicit, to keep proofs elementary). -/
def natCompare (a b : Nat) : Ordering :=
  if a < b then .lt else if b < a then .gt else .eq

/-- Python string comparison: lexicographic by code point. -/
def compareLexChars : List Char → List Char → Ordering
  | [], [] => .eq
  | [], _ :: _ => .lt
  | _ :: _, [] => .gt
  | x :: xs, y :: ys =>
    if x < y then .lt else if y < x then .gt else compareLexChars xs ys

/-- Compare two prerelease identifiers, as in `VersionInfo._nat_cmp`:
purely numeric identifiers compare as integers and sort before
alphanumeric ones; alphanumeric identifiers compare as strings. -/
def compareIdent (a b : List Char) : Ordering :=
  if a.all isDigitC then
    if b.all isDigitC then natCompare (digitsToNat a) (digitsToNat b) else .lt
  else
    if b.all isDigitC then .gt else compareLexChars a b

/-- Compare prerelease identifier lists element-wise; when one list is a
prefix of the other the shorter sorts first (`_nat_cmp`'s final length
tie-break, which agrees with identifier count on valid identifiers). -/
def natCmpList : List (List Char) → List (List Char) → Ordering
  | [], [] => .eq
  | [], _ :: _ => .lt
  | _ :: _, [] => .gt
  | x :: xs, y :: ys =>
    match compareIdent x y with
    | .eq => natCmpList xs ys
    | o => o

/-- Compare prerelease parts as in `VersionInfo.compare`: a release
(empty prerelease) sorts above any prerelease. -/
def comparePre : List (List Char) → List (List Char) → Ordering
  | [], [] => .eq
  | [], _ :: _ => .gt
  | _ :: _, [] => .lt
  | a@(_ :: _), b@(_ :: _) => natCmpList a b

/-- Embeds `semver.VersionInfo.compare`: major, minor, patch numerically, then
the prerelease rule. Build metadata is ignored. -/
def compareVI (a b : VersionInfo) : Ordering :=
  match natCompare a.major b.major with
  | .eq =>
    match natCompare a.minor b.minor with
    | .eq =>
      match natCompare a.patch b.patch with
      | .eq => comparePre a.prerelease b.prerelease
      | o => o
    | o => o
  | o => o

/-! ## `semver.VersionInfo.match` -/

/-- The comparison operators accepted by `VersionInfo.match`. -/
inductive MatchOp
  | opGt | opLt | opGe | opLe | opEq | opNe
deriving DecidableEq, Repr

/-- Split a match expression into operator and version string, following
`VersionInfo.match`: two-character operators `>=`, `<=`, `==`, `!=` are
tried first, then `>` and `<`; anything else raises (`none`). -/
def parseMatchExpr (l : List Char) : Option (MatchOp × List Char) :=
  match l with
  | '>' :: '=' :: r => some (.opGe, r)
  | '<' :: '=' :: r => some (.opLe, r)
  | '=' :: '=' :: r => some (.opEq, r)
  | '!' :: '=' :: r => some (.opNe, r)
  | '>' :: r => some (.opGt, r)
  | '<' :: r => some (.opLt, r)
  | _ => none

/-- The possibilities table of `VersionInfo.match`: which comparison outcomes satisfy each
operator. -/
def opSatisfied (op : MatchOp) (c : Ordering) : Bool :=
  match op with
  | .opGt => c == .gt
  | .opLt => c == .lt
  | .opGe => c != .lt
  | .opLe => c != .gt
  | .opEq => c == .eq
  | .opNe => c != .eq

/-- Embeds `VersionInfo.match(self, match_expr)`: `none` models the
`ValueError` raised for a malformed operator or version. -/
def viMatch (v : VersionInfo) (expr : List Char) : Option Bool :=
  match parseMatchExpr expr with
  | none => none
  | some (op, verStr) =>
    (parseVI verStr).map (fun w => opSatisfied op (compareVI v w))

/-! ## `neophile.inventory.version.SemanticVersion` -/

/-- Strip a single leading `v`, as `SemanticVersion.from_str` /
`SemanticVersion.is_valid` do before parsing. -/
def stripV (l : List Char) : List Char :=
  match l with
  | 'v' :: r => r
  | _ => l

/-- The `SemanticVersion` dataclass: the parsed version (sort key first,
as in the source) and the raw string, which may carry the `v` prefix. -/
structure SemanticVersion where
  parsed : VersionInfo
  version : List Char
deriving DecidableEq, Repr

/-- Embeds `SemanticVersion.is_valid`. -/
def SemanticVersion.isValid (l : List Char) : Bool := viIsValid (stripV l)

/-- Embeds `SemanticVersion.from_str`; `none` models `ValueError` from
`VersionInfo.parse`. -/
def SemanticVersion.fromStr (l : List Char) : Option SemanticVersion :=
  (parseVI (stripV l)).map (fun vi => ⟨vi, l⟩)

/-- The ordering generated by `@dataclass(order=True)` on
`SemanticVersion`: the field tuple `(parsed_version, version)` compared
left to right, where `VersionInfo` equality and ordering go through
`compare` (build ignored) and the raw strings compare as Python strings. -/
def SemanticVersion.ltB (a b : SemanticVersion) : Bool :=
  match compareVI a.parsed b.parsed with
  | .lt => true
  | .eq => compareLexChars a.version b.version == .lt
  | .gt => false

/-- Python `a > b` on the dataclass is tuple comparison in the reverse
direction. -/
def SemanticVersion.gtB (a b : SemanticVersion) : Bool := SemanticVersion.ltB b a

/-! ## Exceptions (`neophile/exceptions.py` and Python built-ins) -/

/-- Modelled from the spec: the `UncommittedChangesError` exception class.
`analysis/python.py` imports it from `neophile.exceptions`, but
`src/neophile/exceptions.py` as provided defines only
`DependencyNotFoundError` and `PushError`; the spec's error taxonomy
lists *UncommittedChanges* as a propagated error with the message
"uncommitted changes". -/
inductive UncommittedChangesError
  | mk
deriving DecidableEq, Repr

/-- The exceptions the embedded code can raise: the two classes of
`neophile/exceptions.py` plus the Python/stdlib exceptions the sources
let escape (`ValueError` from `semver`, `CalledProcessError` from
`subprocess.run(check=True)`). -/
inductive PyExn
  | dependencyNotFound
  | pushError
  | valueError
  | calledProcessError
deriving DecidableEq, Repr

/-! ## `HelmAnalyzer._helm_needs_update` (`analysis/helm.py`) -/

/-- Embeds `HelmAnalyzer._helm_needs_update(current, latest_str)`.

The source first parses `latest_str` through `SemanticVersion.from_str`
(which strips a leading `v`); if `SemanticVersion.is_valid(current)` it
evaluates `latest.parsed_version > current`, which makes
`semver.VersionInfo.compare` parse the raw `current` string *strictly*
(no `v` stripping — a `ValueError` if that fails); otherwise with
`allow_expressions` it evaluates `not latest.parsed_version.match(current)`;
otherwise it returns `True`. -/
def helmNeedsUpdate (allowExpressions : Bool) (current latestStr : List Char) :
    Except PyExn Bool :=
  match SemanticVersion.fromStr latestStr with
  | none => .error .valueError
  | some latest =>
    if SemanticVersion.isValid current then
      match parseVI current with
      | none => .error .valueError
      | some cur => .ok (compareVI latest.parsed cur == .gt)
    else if allowExpressions then
      match viMatch latest.parsed current with
      | none => .error .valueError
      | some b => .ok (!b)
    else .ok true

/-! ## `GitHubInventory.inventory` (`inventory/github.py`) -/

/-- Python `max` over a nonempty list with a strict greater-than test:
keep the current maximum unless a later element is strictly greater. -/
def listMaxBy {α : Type} (gtB : α → α → Bool) (x : α) (xs : List α) : α :=
  xs.foldl (fun m y => if gtB y m then y else m) x

/-- The ways paging through `GET /repos/{owner}/{repo}/tags` can fail,
distinguished by Python exception class, because the source's `except`
clause matches only one of them:

* `clientError` — an `aiohttp.ClientError` transport failure (connection
  refused, timeout, DNS);
* `badRequest` — gidgethub's `BadRequest` raised for an HTTP 4xx status;
  it subclasses `gidgethub.HTTPException` → `GitHubException` →
  `Exception`, *not* `aiohttp.ClientError`;
* `jsonDecodeError` — the JSON decode error gidgethub surfaces for a
  malformed response body, also not an `aiohttp.ClientError`. -/
inductive GitHubFetchError
  | clientError
  | badRequest
  | jsonDecodeError
deriving DecidableEq, Repr

/-- Embeds `GitHubInventory.inventory(owner, repo, semantic)`, abstracted over
the version class selected by the `semantic` flag (`SemanticVersion` or
`PackagingVersion`), exactly as the source dispatches on `cls`:

* `fetched` is the outcome of paging through `GET /repos/.../tags`; the
  source wraps the iteration in `try/except ClientError`, so only an
  `aiohttp.ClientError` is logged and turned into `None` — a gidgethub
  `BadRequest` (HTTP 4xx) or a JSON decode error (malformed body) does
  not match the `except` clause and propagates to the caller;
* on success the tags are filtered by `cls.is_valid`, parsed with
  `cls.from_str`, and `str(max(versions))` is returned, or `None` when
  no tag validates. -/
def githubInventory {α : Type} (isValid : List Char → Bool)
    (fromStr : List Char → α) (gtB : α → α → Bool) (toStr : α → List Char)
    (fetched : Except GitHubFetchError (List (List Char))) :
    Except GitHubFetchError (Option (List Char)) :=
  match fetched with
  | .error .clientError => .ok none
  | .error e => .error e
  | .ok tags =>
    match (tags.filter isValid).map fromStr with
    | [] => .ok none
    | v :: rest => .ok (some (toStr (listMaxBy gtB v rest)))

/-- Wraps `SemanticVersion.from_str` as the total function the analyzer uses on
tags that already passed `is_valid` (the default is never reached on
such tags). -/
def semanticFromStrD (l : List Char) : SemanticVersion :=
  (SemanticVersion.fromStr l).getD ⟨⟨0, 0, 0, [], []⟩, l⟩

/-- Embeds `GitHubInventory.inventory` in `semantic=True` mode. -/
def githubInventorySemantic (fetched : Except GitHubFetchError (List (List Char))) :
    Except GitHubFetchError (Option (List Char)) :=
  githubInventory SemanticVersion.isValid semanticFromStrD
    SemanticVersion.gtB SemanticVersion.version fetched

/-! ## `CachedHelmInventory` (`inventory/helm.py`) -/

/-- Embeds `HelmInventory.canonicalize_url`: keep a URL already ending in
`/index.yaml`, else append a trailing slash when missing and join with
`index.yaml` (for these slash-terminated absolute URLs `urljoin`
degenerates to appending the relative name). -/
def canonicalizeUrl (url : List Char) : List Char :=
  if "/index.yaml".data.isSuffixOf url then url
  else (if url.getLast? = some '/' then url else url ++ ['/']) ++ "index.yaml".data

/-- Embeds `CachedHelmInventory._LIFETIME`: one day in seconds. -/
def cacheLifetime : Nat := 24 * 60 * 60

/-- One value of the on-disk cache mapping: fetch timestamp plus the
chart-name → version mapping. -/
structure CacheEntry where
  timestamp : Nat
  versions : List (List Char × List Char)
deriving DecidableEq, Repr

/-- Python `dict` assignment `cache[k] = v` on the association-list view
of the cache: replace the binding for `k` in place, else append (a dict
holds at most one binding per key). -/
def setCache : List (List Char × CacheEntry) → List Char → CacheEntry →
    List (List Char × CacheEntry)
  | [], k, v => [(k, v)]
  | p :: rest, k, v =>
    if p.1 == k then (k, v) :: setCache rest k v else p :: setCache rest k v

/-- The observable outcome of one `CachedHelmInventory.inventory(url)`
call: the returned mapping, the cache afterwards, whether a network
fetch happened, and whether the cache file was written. -/
structure InventoryOutcome where
  result : List (List Char × List Char)
  cache : List (List Char × CacheEntry)
  fetched : Bool
  persisted : Bool
deriving DecidableEq, Repr

/-- Embeds `CachedHelmInventory.inventory(url)`: canonicalize, then return the
cached versions when the entry's `timestamp + _LIFETIME > now`;
otherwise fetch (`fresh` is what `HelmInventory.inventory` would
return), overwrite the entry with `{timestamp: now, versions}`, persist
the full cache, and return the fresh data. -/
def cachedInventory (cache : List (List Char × CacheEntry)) (now : Nat)
    (fresh : List (List Char × List Char)) (url : List Char) : InventoryOutcome :=
  let curl := canonicalizeUrl url
  match List.lookup curl cache with
  | some e =>
    if e.timestamp + cacheLifetime > now then ⟨e.versions, cache, false, false⟩
    else ⟨fresh, setCache cache curl ⟨now, fresh⟩, true, true⟩
  | none => ⟨fresh, setCache cache curl ⟨now, fresh⟩, true, true⟩

/-! ## Update appliers (`update/*.py`) -/

/-- I/O events an `Update.apply()` call can perform. -/
inductive FileEvent
  | readFile (path : List Char)
  | writeFile (path : List Char)
  | runMake (cwd : List Char)
deriving DecidableEq, Repr

/-- The `HelmUpdate` dataclass: `path`, `applied`, `name`, `current`, `latest`. -/
structure HelmUpdateS where
  path : List Char
  applied : Bool
  name : List Char
  current : List Char
  latest : List Char
deriving DecidableEq, Repr

/-- Embeds `HelmUpdate.apply()` over the `dependencies` list of the chart file,
modelled as (name, version) pairs: a no-op when `applied`; otherwise
load the file, set `version := latest` on every dependency whose name
matches, raise `DependencyNotFoundError` when none does, write the file
back, and set `applied := true`. -/
def helmApply (u : HelmUpdateS) (file : List (List Char × List Char)) :
    Except PyExn (HelmUpdateS × List (List Char × List Char)) × List FileEvent :=
  if u.applied then (.ok (u, file), [])
  else if file.any (fun d => d.1 == u.name) then
    (.ok ({u with applied := true},
          file.map (fun d => if d.1 == u.name then (d.1, u.latest) else d)),
     [.readFile u.path, .writeFile u.path])
  else (.error .dependencyNotFound, [.readFile u.path])

/-- The `PreCommitUpdate` dataclass: `path`, `applied`, `repository`, versions. -/
structure PreCommitUpdateS where
  path : List Char
  applied : Bool
  repository : List Char
  current : List Char
  latest : List Char
deriving DecidableEq, Repr

/-- Embeds `PreCommitUpdate.apply()` over the `repos` list of
`.pre-commit-config.yaml`, modelled as (repo, rev) pairs; same shape as
the Helm applier with `rev := latest` on matching repositories. -/
def preCommitApply (u : PreCommitUpdateS) (file : List (List Char × List Char)) :
    Except PyExn (PreCommitUpdateS × List (List Char × List Char)) × List FileEvent :=
  if u.applied then (.ok (u, file), [])
  else if file.any (fun d => d.1 == u.repository) then
    (.ok ({u with applied := true},
          file.map (fun d => if d.1 == u.repository then (d.1, u.latest) else d)),
     [.readFile u.path, .writeFile u.path])
  else (.error .dependencyNotFound, [.readFile u.path])

/-- The `KustomizeUpdate` dataclass: `path`, `applied`, `url`, `owner`, `repo`,
versions. -/
structure KustomizeUpdateS where
  path : List Char
  applied : Bool
  url : List Char
  owner : List Char
  repo : List Char
  current : List Char
  latest : List Char
deriving DecidableEq, Repr

/-- Embeds `re.sub` with the anchored pattern `\?ref=<current>$` for a
plain-text `current`: replace the suffix `?ref=<current>` when present,
else leave the resource unchanged. -/
def replaceRefSuffix (current latest resource : List Char) : List Char :=
  let suffix := "?ref=".data ++ current
  if suffix.isSuffixOf resource then
    resource.take (resource.length - suffix.length) ++ "?ref=".data ++ latest
  else resource

/-- Embeds `KustomizeUpdate.apply()` over the `resources` list of
`kustomization.yaml`: a no-op when `applied`; otherwise rewrite the
first resource equal to `url` via the anchored `?ref=` substitution,
raise `DependencyNotFoundError` when no resource matches, write the
file, set `applied := true`. -/
def kustomizeApply (u : KustomizeUpdateS) (resources : List (List Char)) :
    Except PyExn (KustomizeUpdateS × List (List Char)) × List FileEvent :=
  if u.applied then (.ok (u, resources), [])
  else
    match resources.findIdx? (fun r => r == u.url) with
    | some i =>
      (.ok ({u with applied := true},
            resources.set i (replaceRefSuffix u.current u.latest u.url)),
       [.readFile u.path, .writeFile u.path])
    | none => (.error .dependencyNotFound, [.readFile u.path])

/-- The `PythonFrozenUpdate` dataclass: `path`, `applied` (the virtualenv only selects
how the command is run). -/
structure PythonFrozenUpdateS where
  path : List Char
  applied : Bool
deriving DecidableEq, Repr

/-- Embeds `PythonFrozenUpdate.apply()` with the tree state abstract: a no-op
when `applied`; otherwise run `make update-deps` in `path`'s parent.
When the command succeeds its effect `eff` is applied to the tree and
`applied` is set; a `CalledProcessError` is caught and logged, the
method returns normally (possibly with a partial effect `effFail`), and
`applied` stays false. -/
def pythonApply {τ : Type} (makeOk : Bool) (eff effFail : τ → τ)
    (u : PythonFrozenUpdateS) (tree : τ) :
    (PythonFrozenUpdateS × τ) × List FileEvent :=
  if u.applied then ((u, tree), [])
  else if makeOk then (({u with applied := true}, eff tree), [.runMake u.path])
  else ((u, effFail tree), [.runMake u.path])

/-! ## `PythonAnalyzer.analyze` (`analysis/python.py`) -/

/-- What `analyze` can raise: the uncommitted-changes precondition
failure or `subprocess.CalledProcessError` from `check=True`. -/
inductive PyAnalyzeError
  | uncommitted (e : UncommittedChangesError)
  | processFailed
deriving DecidableEq, Repr

/-- Steps `analyze` performs against the working tree. -/
inductive PyProcEvent
  | checkDirty
  | runMake
  | gitRestore
deriving DecidableEq, Repr

/-- The repository facts `analyze` consults, in the order it consults
them. -/
structure PyAnalyzerEnv where
  makefileExists : Bool
  mainInExists : Bool
  dirtyBefore : Bool
  makeOk : Bool
  dirtyAfterMake : Bool
deriving DecidableEq, Repr

/-- Embeds `PythonAnalyzer.analyze(update)`: return `[]` unless both `Makefile`
and `requirements/main.in` exist; raise `UncommittedChangesError` on a
dirty tree; run `make update-deps` with `check=True` (so a non-zero exit
raises `CalledProcessError` — there is no `try/except` here); return
`[]` when the tree is still clean; otherwise `git restore .` unless
`update` and return one `PythonFrozenUpdate(path=root/"requirements",
applied=update)`. -/
def pythonAnalyze (env : PyAnalyzerEnv) (root : List Char) (update : Bool) :
    Except PyAnalyzeError (List PythonFrozenUpdateS) × List PyProcEvent :=
  if !env.makefileExists || !env.mainInExists then (.ok [], [])
  else if env.dirtyBefore then (.error (.uncommitted .mk), [.checkDirty])
  else if !env.makeOk then (.error .processFailed, [.checkDirty, .runMake])
  else if !env.dirtyAfterMake then (.ok [], [.checkDirty, .runMake, .checkDirty])
  else if !update then
    (.ok [⟨root ++ "/requirements".data, update⟩],
     [.checkDirty, .runMake, .checkDirty, .gitRestore])
  else
    (.ok [⟨root ++ "/requirements".data, update⟩],
     [.checkDirty, .runMake, .checkDirty])

/-! ## `Processor._process_one_repository` (`processor.py`, `repository.py`) -/

/-- The per-repository cycle's observable steps. -/
inductive RepoEvent
  | switchBranch
  | makePr
  | restoreBranch
deriving DecidableEq, Repr

/-- The working branch `Repository.switch_branch` checks out. -/
def neophileBranch : List Char := "u/neophile".data

/-- What one cycle depends on: the branch checked out before the switch,
the outcome of `update_checkout` (the applied updates, or the exception
it raises), and the outcome of `make_pull_request` when it is invoked. -/
structure RepoRunEnv where
  originalBranch : List Char
  updatesResult : Except PyExn (List (List Char))
  prResult : Except PyExn Unit
deriving Repr

/-- Result of one cycle: the propagated outcome, the branch checked out
when control leaves `_process_one_repository`, and the event trace. -/
structure RepoRunOutcome where
  result : Except PyExn Unit
  branch : List Char
  events : List RepoEvent
deriving Repr

/-- Embeds `Processor._process_one_repository`: `repo.switch_branch()`, then
`update_checkout`, then `make_pull_request` when there are updates, then
`repo.restore_branch()`. The body is straight-line code with no
`try/finally`, so an exception from the update or PR step propagates
before the restore call is reached and the checkout stays on
`u/neophile`. -/
def processOneRepository (env : RepoRunEnv) : RepoRunOutcome :=
  match env.updatesResult with
  | .error e => ⟨.error e, neophileBranch, [.switchBranch]⟩
  | .ok updates =>
    if updates.isEmpty then
      ⟨.ok (), env.originalBranch, [.switchBranch, .restoreBranch]⟩
    else
      match env.prResult with
      | .error e => ⟨.error e, neophileBranch, [.switchBranch, .makePr]⟩
      | .ok _ =>
        ⟨.ok (), env.originalBranch, [.switchBranch, .makePr, .restoreBranch]⟩

/-! ## `PullRequester.make_pull_request` (`pr.py`) -/

/-- GitHub API and Git operations `make_pull_request` performs, in
order. GraphQL calls go to the GraphQL endpoint, not to the `pulls`
REST endpoint. -/
inductive ApiEvent
  | getRepo
  | getPulls
  | getUser
  | gitCommit (message : List Char)
  | remoteAdd
  | gitPush
  | remoteRemove
  | postPulls (title body head base : List Char) (draft maintainerCanModify : Bool)
  | patchPull (number : Nat) (title body : List Char)
  | graphqlPrId (number : Nat)
  | graphqlEnableAutoMerge
deriving DecidableEq, Repr

/-- Embeds `CommitMessage.title`, fixed for all commits. -/
def commitTitle : List Char := "[neophile] Update dependencies".data

/-- Embeds `CommitMessage.body`, `"- " + "\n- ".join(changes) + "\n"`. -/
def commitBody (changes : List (List Char)) : List Char :=
  "- ".data ++ (List.intercalate "\n- ".data changes) ++ "\n".data

/-- Embeds `CommitMessage.__str__`: title, blank line, body. -/
def commitMessageStr (changes : List (List Char)) : List Char :=
  commitTitle ++ "\n\n".data ++ commitBody changes

/-- The environment one `make_pull_request` call runs against. -/
structure PrEnv where
  defaultBranch : List Char
  branch : List Char
  descriptions : List (List Char)
  existingPr : Option Nat
  pushErrorFlag : Bool
  newPrNumber : Nat
  autoMergeFails : Bool
deriving DecidableEq, Repr

/-- Embeds `PullRequester._enable_auto_merge`: two GraphQL calls inside
`try/except QueryError` that only logs; a failure (modelled at the
first call) never escapes. -/
def enableAutoMergeEvents (fails : Bool) (number : Nat) : List ApiEvent :=
  if fails then [.graphqlPrId number]
  else [.graphqlPrId number, .graphqlEnableAutoMerge]

/-- Embeds `PullRequester.make_pull_request(changes)`: resolve the repo (local
git), `GET` the default branch, search open PRs from `u/neophile`,
commit (`GET /user` then `git commit`), force-push through the temporary
remote (removed in a `finally`; a `PushInfo.ERROR` flag raises
`PushError` before any PR API call), then `PATCH` the existing PR's
title and body or `POST` a new PR with `draft=False`,
`maintainer_can_modify=True`, and finally best-effort auto-merge. -/
def makePullRequest (env : PrEnv) : Except PyExn Unit × List ApiEvent :=
  let message := commitMessageStr env.descriptions
  let pre : List ApiEvent :=
    [.getRepo, .getPulls, .getUser, .gitCommit message,
     .remoteAdd, .gitPush, .remoteRemove]
  if env.pushErrorFlag then (.error .pushError, pre)
  else
    match env.existingPr with
    | some n =>
      (.ok (),
       pre ++ [.patchPull n commitTitle (commitBody env.descriptions)]
           ++ enableAutoMergeEvents env.autoMergeFails n)
    | none =>
      (.ok (),
       pre ++ [.postPulls commitTitle (commitBody env.descriptions)
                 env.branch env.defaultBranch false true]
           ++ enableAutoMergeEvents env.autoMergeFails env.newPrNumber)

/-- Recognizer for `POST .../pulls` events. -/
def isPostPulls : ApiEvent → Bool
  | .postPulls _ _ _ _ _ _ => true
  | _ => false

/-- Recognizer for `PATCH .../pulls/{number}` events. -/
def isPatchPull : ApiEvent → Bool
  | .patchPull _ _ _ => true
  | _ => false

/-! ## Theorems -/

/-- C1: for every Update value (Helm, Kustomize, pre-commit, or
Python-frozen) whose `applied` flag is true, `apply()` is a no-op — it
returns the file/tree content unchanged with an empty I/O trace — and
whenever a first `apply()` call returns successfully, a second call on
its result is such a no-op, so applying twice yields the file content of
applying once with no I/O on the second call. -/
theorem c1_apply_idempotent :
    (∀ (u : HelmUpdateS) (f : List (List Char × List Char)), u.applied = true →
      helmApply u f = (.ok (u, f), [])) ∧
    (∀ (u : KustomizeUpdateS) (f : List (List Char)), u.applied = true →
      kustomizeApply u f = (.ok (u, f), [])) ∧
    (∀ (u : PreCommitUpdateS) (f : List (List Char × List Char)), u.applied = true →
      preCommitApply u f = (.ok (u, f), [])) ∧
    (∀ (τ : Type) (makeOk : Bool) (eff effFail : τ → τ)
        (u : PythonFrozenUpdateS) (t : τ), u.applied = true →
      pythonApply makeOk eff effFail u t = ((u, t), [])) ∧
    (∀ (u u' : HelmUpdateS) (f f' : List (List Char × List Char)) ev,
      helmApply u f = (.ok (u', f'), ev) → helmApply u' f' = (.ok (u', f'), [])) ∧
    (∀ (u u' : KustomizeUpdateS) (f f' : List (List Char)) ev,
      kustomizeApply u f = (.ok (u', f'), ev) →
        kustomizeApply u' f' = (.ok (u', f'), [])) ∧
    (∀ (u u' : PreCommitUpdateS) (f f' : List (List Char × List Char)) ev,
      preCommitApply u f = (.ok (u', f'), ev) →
        preCommitApply u' f' = (.ok (u', f'), [])) ∧
    (∀ (τ : Type) (makeOk : Bool) (eff effFail : τ → τ)
        (u u' : PythonFrozenUpdateS) (t t' : τ) ev,
      pythonApply makeOk eff effFail u t = ((u', t'), ev) → u'.applied = true →
        ∀ (makeOk₂ : Bool) (eff₂ effFail₂ : τ → τ),
          pythonApply makeOk₂ eff₂ effFail₂ u' t' = ((u', t'), [])) := by
  refine ⟨?_, ?_, ?_, ?_, ?_, ?_, ?_, ?_⟩
  · intro u f h
    simp [helmApply, h]
  · intro u f h
    simp [kustomizeApply, h]
  · intro u f h
    simp [preCommitApply, h]
  · intro τ mk eff effFail u t h
    simp [pythonApply, h]
  · intro u u' f f' ev h
    by_cases ha : u.applied = true
    · simp [helmApply, ha] at h
      obtain ⟨⟨h1, h2⟩, _⟩ := h
      simp [helmApply, ← h1, ha, ← h2]
    · simp [helmApply, ha] at h
      by_cases hf : f.any (fun d => d.1 == u.name) = true
      · simp [hf] at h
        obtain ⟨⟨h1, h2⟩, _⟩ := h
        simp [helmApply, ← h1]
      · simp [hf] at h
  · intro u u' f f' ev h
    by_cases ha : u.applied = true
    · simp [kustomizeApply, ha] at h
      obtain ⟨⟨h1, h2⟩, _⟩ := h
      simp [kustomizeApply, ← h1, ha, ← h2]
    · simp [kustomizeApply, ha] at h
      cases hf : f.findIdx? (fun r => r == u.url) with
      | some i =>
        simp [hf] at h
        obtain ⟨⟨h1, h2⟩, _⟩ := h
        simp [kustomizeApply, ← h1]
      | none => simp [hf] at h
  · intro u u' f f' ev h
    by_cases ha : u.applied = true
    · simp [preCommitApply, ha] at h
      obtain ⟨⟨h1, h2⟩, _⟩ := h
      simp [preCommitApply, ← h1, ha, ← h2]
    · simp [preCommitApply, ha] at h
      by_cases hf : f.any (fun d => d.1 == u.repository) = true
      · simp [hf] at h
        obtain ⟨⟨h1, h2⟩, _⟩ := h
        simp [preCommitApply, ← h1]
      · simp [hf] at h
  · intro τ mk eff effFail u u' t t' ev h ha mk₂ eff₂ effFail₂
    simp [pythonApply, ha]

/-- Witness for C1 at concrete inputs: an already-applied Helm update is
a no-op, and a successful pending Helm apply followed by a second apply
changes nothing further. -/
theorem c1_apply_idempotent_witness :
    helmApply ⟨"Chart.yaml".data, true, "kibana".data, "3.0.0".data, "3.0.1".data⟩
        [("kibana".data, "3.0.0".data)] =
      (.ok (⟨"Chart.yaml".data, true, "kibana".data, "3.0.0".data, "3.0.1".data⟩,
            [("kibana".data, "3.0.0".data)]), []) ∧
    helmApply ⟨"Chart.yaml".data, true, "kibana".data, "3.0.0".data, "3.0.1".data⟩
        [("kibana".data, "3.0.1".data)] =
      (.ok (⟨"Chart.yaml".data, true, "kibana".data, "3.0.0".data, "3.0.1".data⟩,
            [("kibana".data, "3.0.1".data)]), []) := by
  constructor
  · exact c1_apply_idempotent.1
      ⟨"Chart.yaml".data, true, "kibana".data, "3.0.0".data, "3.0.1".data⟩
      [("kibana".data, "3.0.0".data)] rfl
  · exact c1_apply_idempotent.2.2.2.2.1
      ⟨"Chart.yaml".data, false, "kibana".data, "3.0.0".data, "3.0.1".data⟩
      ⟨"Chart.yaml".data, true, "kibana".data, "3.0.0".data, "3.0.1".data⟩
      [("kibana".data, "3.0.0".data)] [("kibana".data, "3.0.1".data)]
      [FileEvent.readFile "Chart.yaml".data, FileEvent.writeFile "Chart.yaml".data]
      rfl

/-- C6 (code bug): with `Makefile` and `requirements/main.in` present and
a clean tree, a failing `make update-deps` makes
`PythonAnalyzer.analyze` raise `subprocess.CalledProcessError` to its
caller — there is no `try/except`, so the failure is neither logged nor
converted into an empty update list as the spec (and the analyzer's own
test) expect. -/
theorem c6_make_failure_raises :
    pythonAnalyze ⟨true, true, false, false, false⟩ "/repo".data false =
      (.error .processFailed, [.checkDirty, .runMake]) := by
  rfl

/-- C7: when both marker files exist and the Git working tree is already
dirty, `PythonAnalyzer.analyze` raises the uncommitted-changes error and
the trace contains no regeneration subprocess run. -/
theorem c7_dirty_tree_aborts (env : PyAnalyzerEnv) (root : List Char)
    (update : Bool) (hm : env.makefileExists = true)
    (hi : env.mainInExists = true) (hd : env.dirtyBefore = true) :
    pythonAnalyze env root update =
      (.error (.uncommitted .mk), [.checkDirty]) ∧
    PyProcEvent.runMake ∉ (pythonAnalyze env root update).2 := by
  have h : pythonAnalyze env root update =
      (.error (.uncommitted .mk), [.checkDirty]) := by
    simp [pythonAnalyze, hm, hi, hd]
  exact ⟨h, by rw [h]; decide⟩

/-- Witness for C7 at a concrete environment. -/
theorem c7_dirty_tree_aborts_witness :
    pythonAnalyze ⟨true, true, true, true, true⟩ "/repo".data false =
      (.error (.uncommitted .mk), [.checkDirty]) ∧
    PyProcEvent.runMake ∉
      (pythonAnalyze ⟨true, true, true, true, true⟩ "/repo".data false).2 :=
  c7_dirty_tree_aborts ⟨true, true, true, true, true⟩ "/repo".data false
    rfl rfl rfl

/-- C10: when `PythonFrozenUpdate.apply()` runs on a pending update and
`make update-deps` fails, the `CalledProcessError` is caught — the call
returns normally — `applied` stays false, and a later `apply()` call on
the returned update runs the regeneration again instead of being a
no-op. -/
theorem c10_python_apply_failure (τ : Type) (eff effFail : τ → τ)
    (u : PythonFrozenUpdateS) (t : τ) (h : u.applied = false) :
    pythonApply false eff effFail u t = ((u, effFail t), [.runMake u.path]) ∧
    (pythonApply false eff effFail u t).1.1.applied = false ∧
    (∀ (makeOk₂ : Bool) (eff₂ effFail₂ : τ → τ) (t₂ : τ),
      (pythonApply makeOk₂ eff₂ effFail₂
          (pythonApply false eff effFail u t).1.1 t₂).2 = [.runMake u.path]) := by
  have h1 : pythonApply false eff effFail u t =
      ((u, effFail t), [.runMake u.path]) := by
    simp [pythonApply, h]
  refine ⟨h1, by rw [h1]; exact h, ?_⟩
  intro mk₂ eff₂ effFail₂ t₂
  rw [h1]
  by_cases hmk : mk₂ = true <;> simp [pythonApply, h, hmk]

/-- A digit character is below `'v'` in code-point order. -/
theorem isDigitC_lt_v {c : Char} (h : isDigitC c = true) : c < 'v' := by
  have h9 : c ≤ '9' := by
    have h2 := (Bool.and_eq_true _ _).mp h
    exact of_decide_eq_true h2.2
  exact lt_of_le_of_lt h9 (by decide)

/-- A digit character is not `'v'`. -/
theorem isDigitC_ne_v {c : Char} (h : isDigitC c = true) : c ≠ 'v' :=
  ne_of_lt (isDigitC_lt_v h)

/-- A successful `parseNum` means the input starts with a digit. -/
theorem parseNum_head_digit {l : List Char} {p : Nat × List Char}
    (h : parseNum l = some p) :
    ∃ c cs, l = c :: cs ∧ isDigitC c = true := by
  cases l with
  | nil => simp [parseNum] at h
  | cons c cs =>
    cases hdig : isDigitC c with
    | true => exact ⟨c, cs, rfl, hdig⟩
    | false =>
      exfalso
      unfold parseNum at h
      simp [List.takeWhile_cons, hdig] at h

/-- A valid semver string starts with a digit. -/
theorem parseVI_head_digit {l : List Char} {vi : VersionInfo}
    (h : parseVI l = some vi) :
    ∃ c cs, l = c :: cs ∧ isDigitC c = true := by
  unfold parseVI at h
  cases hp : parseNum l with
  | none => rw [hp] at h; exact absurd h (by simp)
  | some p => exact parseNum_head_digit hp

/-- `stripV` is the identity on a string that does not start with `'v'`. -/
theorem stripV_of_head_ne {c : Char} {cs : List Char} (h : c ≠ 'v') :
    stripV (c :: cs) = c :: cs := by
  unfold stripV
  split
  · next r heq =>
    injection heq with h1 _
    exact absurd h1 h
  · rfl

/-- `stripV` is the identity on a valid strict semver string. -/
theorem stripV_of_parseVI {l : List Char} {vi : VersionInfo}
    (h : parseVI l = some vi) : stripV l = l := by
  obtain ⟨c, cs, rfl, hc⟩ := parseVI_head_digit h
  exact stripV_of_head_ne (isDigitC_ne_v hc)

theorem natCompare_refl (a : Nat) : natCompare a a = .eq := by
  simp [natCompare]

theorem compareLexChars_refl : ∀ l : List Char, compareLexChars l l = .eq
  | [] => rfl
  | x :: xs => by
    simp [compareLexChars, lt_irrefl, compareLexChars_refl xs]

theorem compareIdent_refl (a : List Char) : compareIdent a a = .eq := by
  by_cases h : a.all isDigitC = true <;>
    simp [compareIdent, h, natCompare_refl, compareLexChars_refl]

theorem natCmpList_refl : ∀ l : List (List Char), natCmpList l l = .eq
  | [] => rfl
  | x :: xs => by
    simp [natCmpList, compareIdent_refl x, natCmpList_refl xs]

theorem comparePre_refl (l : List (List Char)) : comparePre l l = .eq := by
  cases l with
  | nil => rfl
  | cons x xs => simp [comparePre, natCmpList_refl]

/-- Reflexivity of the embedded `VersionInfo.compare`. -/
theorem compareVI_refl (v : VersionInfo) : compareVI v v = .eq := by
  simp [compareVI, natCompare_refl, comparePre_refl]

/-- C2 (counterexample): `"v1.0.0"` is valid for
`SemanticVersion.is_valid` (the `v` is stripped), so the claim's first
branch applies, yet `_helm_needs_update("v1.0.0", "2.0.0")` raises
`ValueError` instead of returning true: the `latest > current`
comparison makes `semver` parse the raw `current` string, which rejects
the `v` prefix. -/
theorem c2_counterexample :
    SemanticVersion.isValid "v1.0.0".data = true ∧
    SemanticVersion.isValid "2.0.0".data = true ∧
    helmNeedsUpdate false "v1.0.0".data "2.0.0".data = .error .valueError :=
  ⟨by decide, by decide, rfl⟩

/-- C2 (amended): with a valid latest version, the needs-update
predicate returns (1) `latest > current` under semver comparison when
`current` is a strict (unprefixed) semver string — a `v`-prefixed
`current` instead raises `ValueError`, see the counterexample; (2) true
unconditionally when `current` is not a valid version and expression
mode is off; (3) the negation of the range check `latest.match(current)`
when `current` is not a valid version, expression mode is on, and
`current` is a well-formed match expression over a valid version. -/
theorem c2_needs_update_amended :
    (∀ (cur lat : List Char) (vc vl : VersionInfo) (mode : Bool),
      parseVI cur = some vc → parseVI (stripV lat) = some vl →
      helmNeedsUpdate mode cur lat = .ok (compareVI vl vc == .gt)) ∧
    (∀ (cur lat : List Char) (vl : VersionInfo),
      SemanticVersion.isValid cur = false → parseVI (stripV lat) = some vl →
      helmNeedsUpdate false cur lat = .ok true) ∧
    (∀ (cur lat verStr : List Char) (vl w : VersionInfo) (op : MatchOp),
      SemanticVersion.isValid cur = false → parseVI (stripV lat) = some vl →
      parseMatchExpr cur = some (op, verStr) → parseVI verStr = some w →
      helmNeedsUpdate true cur lat = .ok (!(opSatisfied op (compareVI vl w)))) := by
  refine ⟨?_, ?_, ?_⟩
  · intro cur lat vc vl mode hcur hlat
    have hstrip : stripV cur = cur := stripV_of_parseVI hcur
    have hvalid : SemanticVersion.isValid cur = true := by
      simp [SemanticVersion.isValid, viIsValid, hstrip, hcur]
    simp [helmNeedsUpdate, SemanticVersion.fromStr, hlat, hvalid, hcur]
  · intro cur lat vl hcur hlat
    simp [helmNeedsUpdate, SemanticVersion.fromStr, hlat, hcur]
  · intro cur lat verStr vl w op hcur hlat hexpr hver
    simp [helmNeedsUpdate, SemanticVersion.fromStr, hlat, hcur, viMatch,
      hexpr, hver]

/-- Witness for the amended C2 at the spec's own examples. -/
theorem c2_needs_update_amended_witness :
    helmNeedsUpdate false "3.0.0".data "3.0.1".data =
      .ok (compareVI ⟨3, 0, 1, [], []⟩ ⟨3, 0, 0, [], []⟩ == .gt) ∧
    helmNeedsUpdate false ">=3.0.0".data "3.0.1".data = .ok true ∧
    helmNeedsUpdate true ">=3.0.0".data "2.0.0".data =
      .ok (!(opSatisfied .opGe (compareVI ⟨2, 0, 0, [], []⟩ ⟨3, 0, 0, [], []⟩))) :=
  ⟨c2_needs_update_amended.1 "3.0.0".data "3.0.1".data
      ⟨3, 0, 0, [], []⟩ ⟨3, 0, 1, [], []⟩ false rfl rfl,
   c2_needs_update_amended.2.1 ">=3.0.0".data "3.0.1".data
      ⟨3, 0, 1, [], []⟩ (by decide) rfl,
   c2_needs_update_amended.2.2 ">=3.0.0".data "2.0.0".data "3.0.0".data
      ⟨2, 0, 0, [], []⟩ ⟨3, 0, 0, [], []⟩ .opGe (by decide) rfl rfl rfl⟩

/-- C8 (counterexample): for `s = "1.0.0"` the parsed `SemanticVersion`
of `s` *is* less than that of `"v" + s` — the dataclass order compares
the raw string after the tied parsed versions — so the two do not
compare equal in ordering as claimed. -/
theorem c8_counterexample :
    SemanticVersion.isValid "1.0.0".data = true ∧
    ((SemanticVersion.fromStr "1.0.0".data).bind (fun a =>
      (SemanticVersion.fromStr "v1.0.0".data).map (fun b =>
        SemanticVersion.ltB a b))) = some true :=
  ⟨by decide, by decide⟩

/-- C8 (amended): for every valid strict semver string `s`, the parsed
components of `"v" + s` and `s` are equal under `VersionInfo.compare`,
but the dataclass ordering of `SemanticVersion` breaks the tie on the
raw string, so `parse(s) < parse("v" + s)` strictly; and whenever two
parsed versions differ under `VersionInfo.compare`, the dataclass order
agrees with the semver numeric/prerelease ordering rules. -/
theorem c8_ordering_amended :
    (∀ (l : List Char) (vi : VersionInfo), parseVI l = some vi →
      SemanticVersion.fromStr l = some ⟨vi, l⟩ ∧
      SemanticVersion.fromStr ('v' :: l) = some ⟨vi, 'v' :: l⟩ ∧
      compareVI vi vi = .eq ∧
      SemanticVersion.ltB ⟨vi, l⟩ ⟨vi, 'v' :: l⟩ = true ∧
      SemanticVersion.ltB ⟨vi, 'v' :: l⟩ ⟨vi, l⟩ = false) ∧
    (∀ (a b : List Char) (va vb : VersionInfo), compareVI va vb ≠ .eq →
      (SemanticVersion.ltB ⟨va, a⟩ ⟨vb, b⟩ = true ↔ compareVI va vb = .lt)) := by
  constructor
  · intro l vi h
    obtain ⟨c, cs, rfl, hc⟩ := parseVI_head_digit h
    have hstrip : stripV (c :: cs) = c :: cs :=
      stripV_of_head_ne (isDigitC_ne_v hc)
    have hlt : c < 'v' := isDigitC_lt_v hc
    refine ⟨?_, ?_, compareVI_refl vi, ?_, ?_⟩
    · simp [SemanticVersion.fromStr, hstrip, h]
    · simp [SemanticVersion.fromStr, stripV, h]
    · simp [SemanticVersion.ltB, compareVI_refl, compareLexChars, hlt]
      rfl
    · simp [SemanticVersion.ltB, compareVI_refl, compareLexChars, hlt,
        asymm hlt]
      rfl
  · intro a b va vb h
    cases hc : compareVI va vb with
    | lt => simp [SemanticVersion.ltB, hc]
    | eq => exact absurd hc h
    | gt => simp [SemanticVersion.ltB, hc]

/-- Witness for the amended C8 at concrete versions. -/
theorem c8_ordering_amended_witness :
    (SemanticVersion.fromStr "1.2.3".data = some ⟨⟨1, 2, 3, [], []⟩, "1.2.3".data⟩ ∧
     SemanticVersion.fromStr "v1.2.3".data = some ⟨⟨1, 2, 3, [], []⟩, "v1.2.3".data⟩ ∧
     compareVI ⟨1, 2, 3, [], []⟩ ⟨1, 2, 3, [], []⟩ = .eq ∧
     SemanticVersion.ltB ⟨⟨1, 2, 3, [], []⟩, "1.2.3".data⟩
       ⟨⟨1, 2, 3, [], []⟩, "v1.2.3".data⟩ = true ∧
     SemanticVersion.ltB ⟨⟨1, 2, 3, [], []⟩, "v1.2.3".data⟩
       ⟨⟨1, 2, 3, [], []⟩, "1.2.3".data⟩ = false) ∧
    (SemanticVersion.ltB ⟨⟨1, 3, 1, [], []⟩, "1.3.1".data⟩
       ⟨⟨1, 4, 0, [], []⟩, "1.4.0".data⟩ = true ↔
     compareVI ⟨1, 3, 1, [], []⟩ ⟨1, 4, 0, [], []⟩ = .lt) :=
  ⟨c8_ordering_amended.1 "1.2.3".data ⟨1, 2, 3, [], []⟩ rfl,
   c8_ordering_amended.2 "1.3.1".data "1.4.0".data
     ⟨1, 3, 1, [], []⟩ ⟨1, 4, 0, [], []⟩ (by decide)⟩

/-- C9 (counterexample): a cycle whose update step raises (here a
`DependencyNotFoundError` from an applier) exits with the checkout still
on `u/neophile` and no `restore_branch` call — the body of
`_process_one_repository` has no `try/finally`, so the original branch
is not restored on this exit path. -/
theorem c9_counterexample :
    (processOneRepository
        ⟨"master".data, .error .dependencyNotFound, .ok ()⟩).branch =
      neophileBranch ∧
    (processOneRepository
        ⟨"master".data, .error .dependencyNotFound, .ok ()⟩).branch ≠
      "master".data ∧
    RepoEvent.restoreBranch ∉
      (processOneRepository
        ⟨"master".data, .error .dependencyNotFound, .ok ()⟩).events :=
  ⟨rfl, by decide, by decide⟩

/-- C9 (amended): the original branch is restored only on the successful
exit paths of `_process_one_repository` (no updates, or updates plus a
successful pull request); when update analysis/application or
pull-request creation raises, the exception propagates with no
`restore_branch` call and the checkout left on `u/neophile`. -/
theorem c9_restore_amended (env : RepoRunEnv) :
    (∀ updates, env.updatesResult = .ok updates →
      (updates.isEmpty = true →
        (processOneRepository env).branch = env.originalBranch ∧
        RepoEvent.restoreBranch ∈ (processOneRepository env).events) ∧
      (updates.isEmpty = false → env.prResult = .ok () →
        (processOneRepository env).branch = env.originalBranch ∧
        RepoEvent.restoreBranch ∈ (processOneRepository env).events)) ∧
    (∀ e, env.updatesResult = .error e →
      (processOneRepository env).result = .error e ∧
      (processOneRepository env).branch = neophileBranch ∧
      RepoEvent.restoreBranch ∉ (processOneRepository env).events) ∧
    (∀ updates e, env.updatesResult = .ok updates → updates.isEmpty = false →
      env.prResult = .error e →
      (processOneRepository env).result = .error e ∧
      (processOneRepository env).branch = neophileBranch ∧
      RepoEvent.restoreBranch ∉ (processOneRepository env).events) := by
  refine ⟨?_, ?_, ?_⟩
  · intro updates hup
    constructor
    · intro hempty
      simp [processOneRepository, hup, hempty]
    · intro hnonempty hpr
      simp [processOneRepository, hup, hnonempty, hpr]
  · intro e hup
    refine ⟨?_, ?_, ?_⟩ <;> simp [processOneRepository, hup]
  · intro updates e hup hnonempty hpr
    refine ⟨?_, ?_, ?_⟩ <;>
      simp [processOneRepository, hup, hnonempty, hpr]

/-- Witness for the amended C9: a successful cycle with one update
restores the branch; a failing pull request leaves `u/neophile`. -/
theorem c9_restore_amended_witness :
    ((processOneRepository
        ⟨"master".data, .ok ["chg".data], .ok ()⟩).branch = "master".data ∧
     RepoEvent.restoreBranch ∈
       (processOneRepository
         ⟨"master".data, .ok ["chg".data], .ok ()⟩).events) ∧
    ((processOneRepository
        ⟨"master".data, .ok ["chg".data], .error .pushError⟩).result =
       .error .pushError ∧
     (processOneRepository
        ⟨"master".data, .ok ["chg".data], .error .pushError⟩).branch =
       neophileBranch ∧
     RepoEvent.restoreBranch ∉
       (processOneRepository
         ⟨"master".data, .ok ["chg".data], .error .pushError⟩).events) :=
  ⟨((c9_restore_amended
      ⟨"master".data, .ok ["chg".data], .ok ()⟩).1 ["chg".data] rfl).2
        rfl rfl,
   (c9_restore_amended
      ⟨"master".data, .ok ["chg".data], .error .pushError⟩).2.2 ["chg".data]
        .pushError rfl rfl rfl⟩

/-- Witness for C10 at a concrete pending update. -/
theorem c10_python_apply_failure_witness :
    pythonApply false (fun n => n + 1) id ⟨"requirements".data, false⟩ (0 : Nat) =
      ((⟨"requirements".data, false⟩, 0), [.runMake "requirements".data]) ∧
    (pythonApply false (fun n => n + 1) id
        ⟨"requirements".data, false⟩ (0 : Nat)).1.1.applied = false ∧
    (∀ (makeOk₂ : Bool) (eff₂ effFail₂ : Nat → Nat) (t₂ : Nat),
      (pythonApply makeOk₂ eff₂ effFail₂
          (pythonApply false (fun n => n + 1) id
            ⟨"requirements".data, false⟩ (0 : Nat)).1.1 t₂).2 =
        [.runMake "requirements".data]) :=
  c10_python_apply_failure Nat (fun n => n + 1) id
    ⟨"requirements".data, false⟩ 0 rfl

/-- C3: with a successful push, `make_pull_request` issues exactly one
`POST .../pulls` (with `draft=False` and `maintainer_can_modify=True`)
and no `PATCH` when the open-PR search found nothing, and exactly one
`PATCH .../pulls/{number}` (carrying only title and body) of the found
PR's number and no `POST` when it found one. -/
theorem c3_pr_create_or_update (env : PrEnv)
    (hpush : env.pushErrorFlag = false) :
    (env.existingPr = none →
      ((makePullRequest env).2.countP isPostPulls = 1 ∧
       (makePullRequest env).2.countP isPatchPull = 0 ∧
       ApiEvent.postPulls commitTitle (commitBody env.descriptions)
           env.branch env.defaultBranch false true ∈ (makePullRequest env).2)) ∧
    (∀ n, env.existingPr = some n →
      ((makePullRequest env).2.countP isPatchPull = 1 ∧
       (makePullRequest env).2.countP isPostPulls = 0 ∧
       ApiEvent.patchPull n commitTitle (commitBody env.descriptions) ∈
         (makePullRequest env).2)) := by
  constructor
  · intro hnone
    cases ham : env.autoMergeFails <;>
      simp [makePullRequest, hpush, hnone, enableAutoMergeEvents, ham,
        List.countP_append, List.countP_cons, isPostPulls, isPatchPull,
        List.countP_nil]
  · intro n hsome
    cases ham : env.autoMergeFails <;>
      simp [makePullRequest, hpush, hsome, enableAutoMergeEvents, ham,
        List.countP_append, List.countP_cons, isPostPulls, isPatchPull,
        List.countP_nil]

/-- Witness for C3 at concrete environments: one with no existing PR,
one with PR number 5. -/
theorem c3_pr_create_or_update_witness :
    ((makePullRequest
        ⟨"main".data, "u/neophile".data, ["chg".data], none, false, 7,
          false⟩).2.countP isPostPulls = 1 ∧
     (makePullRequest
        ⟨"main".data, "u/neophile".data, ["chg".data], none, false, 7,
          false⟩).2.countP isPatchPull = 0 ∧
     ApiEvent.postPulls commitTitle (commitBody ["chg".data])
         "u/neophile".data "main".data false true ∈
       (makePullRequest
         ⟨"main".data, "u/neophile".data, ["chg".data], none, false, 7,
           false⟩).2) ∧
    ((makePullRequest
        ⟨"main".data, "u/neophile".data, ["chg".data], some 5, false, 7,
          false⟩).2.countP isPatchPull = 1 ∧
     (makePullRequest
        ⟨"main".data, "u/neophile".data, ["chg".data], some 5, false, 7,
          false⟩).2.countP isPostPulls = 0 ∧
     ApiEvent.patchPull 5 commitTitle (commitBody ["chg".data]) ∈
       (makePullRequest
         ⟨"main".data, "u/neophile".data, ["chg".data], some 5, false, 7,
           false⟩).2) :=
  ⟨(c3_pr_create_or_update
      ⟨"main".data, "u/neophile".data, ["chg".data], none, false, 7, false⟩
      rfl).1 rfl,
   (c3_pr_create_or_update
      ⟨"main".data, "u/neophile".data, ["chg".data], some 5, false, 7, false⟩
      rfl).2 5 rfl⟩

/-- Looking up the key just stored by `setCache` yields the new entry. -/
theorem lookup_setCache_self (cache : List (List Char × CacheEntry))
    (k : List Char) (v : CacheEntry) :
    List.lookup k (setCache cache k v) = some v := by
  induction cache with
  | nil => simp [setCache, List.lookup]
  | cons p rest ih =>
    by_cases h : p.1 == k
    · simp [setCache, h, List.lookup]
    · have h' : ¬(k == p.1) = true := by
        simp only [beq_iff_eq] at h ⊢
        exact fun he => h he.symm
      simp [setCache, h, List.lookup, h', ih]

/-- `setCache` leaves every other key's binding unchanged. -/
theorem lookup_setCache_ne (cache : List (List Char × CacheEntry))
    (k k' : List Char) (v : CacheEntry) (hne : k' ≠ k) :
    List.lookup k' (setCache cache k v) = List.lookup k' cache := by
  have hbk : (k' == k) = false := beq_eq_false_iff_ne.mpr hne
  induction cache with
  | nil => simp [setCache, List.lookup, hbk]
  | cons p rest ih =>
    by_cases h : p.1 == k
    · have hk : p.1 = k := by simpa using h
      simp [setCache, h, List.lookup, hbk, hk, ih]
    · simp [setCache, h, List.lookup, ih]

/-- C4: a cache entry for the canonicalized URL younger than the
24-hour lifetime is returned as-is with no fetch and no cache write;
otherwise (stale entry or no entry) a fetch happens, the entry for that
URL is overwritten with the new timestamp and versions, every other
entry is untouched, the cache is persisted, and the fresh data is
returned. -/
theorem c4_cached_inventory (cache : List (List Char × CacheEntry))
    (now : Nat) (fresh : List (List Char × List Char)) (url : List Char) :
    (∀ e, List.lookup (canonicalizeUrl url) cache = some e →
      now - e.timestamp < cacheLifetime →
      cachedInventory cache now fresh url = ⟨e.versions, cache, false, false⟩) ∧
    (∀ e, List.lookup (canonicalizeUrl url) cache = some e →
      ¬(now - e.timestamp < cacheLifetime) →
      (cachedInventory cache now fresh url).result = fresh ∧
      (cachedInventory cache now fresh url).fetched = true ∧
      (cachedInventory cache now fresh url).persisted = true ∧
      List.lookup (canonicalizeUrl url) (cachedInventory cache now fresh url).cache =
        some ⟨now, fresh⟩ ∧
      (∀ k, k ≠ canonicalizeUrl url →
        List.lookup k (cachedInventory cache now fresh url).cache =
          List.lookup k cache)) ∧
    (List.lookup (canonicalizeUrl url) cache = none →
      (cachedInventory cache now fresh url).result = fresh ∧
      (cachedInventory cache now fresh url).fetched = true ∧
      (cachedInventory cache now fresh url).persisted = true ∧
      List.lookup (canonicalizeUrl url) (cachedInventory cache now fresh url).cache =
        some ⟨now, fresh⟩ ∧
      (∀ k, k ≠ canonicalizeUrl url →
        List.lookup k (cachedInventory cache now fresh url).cache =
          List.lookup k cache)) := by
  refine ⟨?_, ?_, ?_⟩
  · intro e hl hage
    have hcond : e.timestamp + cacheLifetime > now := by
      have : (0 : Nat) < cacheLifetime := by decide
      omega
    simp [cachedInventory, hl, hcond]
  · intro e hl hage
    have hL : (0 : Nat) < cacheLifetime := by decide
    have hcond : ¬(e.timestamp + cacheLifetime > now) := by
      simp only [not_lt] at hage ⊢
      omega
    simp [cachedInventory, hl, hcond, lookup_setCache_self]
    intro k hk
    exact lookup_setCache_ne cache (canonicalizeUrl url) k ⟨now, fresh⟩ hk
  · intro hl
    simp [cachedInventory, hl, lookup_setCache_self]
    intro k hk
    exact lookup_setCache_ne cache (canonicalizeUrl url) k ⟨now, fresh⟩ hk

/-- Witness for C4: a fresh entry is served from cache without a fetch;
a stale one triggers a fetch that overwrites it and persists. -/
theorem c4_cached_inventory_witness :
    cachedInventory
        [("https://e.com/index.yaml".data,
          ⟨100, [("a".data, "1.0.0".data)]⟩)] 1000
        [("a".data, "2.0.0".data)] "https://e.com/".data =
      ⟨[("a".data, "1.0.0".data)],
       [("https://e.com/index.yaml".data, ⟨100, [("a".data, "1.0.0".data)]⟩)],
       false, false⟩ ∧
    (cachedInventory
        [("https://e.com/index.yaml".data,
          ⟨100, [("a".data, "1.0.0".data)]⟩)] 100000000
        [("a".data, "2.0.0".data)] "https://e.com/".data).fetched = true ∧
    List.lookup "https://e.com/index.yaml".data
        (cachedInventory
          [("https://e.com/index.yaml".data,
            ⟨100, [("a".data, "1.0.0".data)]⟩)] 100000000
          [("a".data, "2.0.0".data)] "https://e.com/".data).cache =
      some ⟨100000000, [("a".data, "2.0.0".data)]⟩ :=
  ⟨by
    have h := (c4_cached_inventory
      [("https://e.com/index.yaml".data, ⟨100, [("a".data, "1.0.0".data)]⟩)]
      1000 [("a".data, "2.0.0".data)] "https://e.com/".data).1
      ⟨100, [("a".data, "1.0.0".data)]⟩ (by decide) (by decide)
    exact h,
   by
    have h := ((c4_cached_inventory
      [("https://e.com/index.yaml".data, ⟨100, [("a".data, "1.0.0".data)]⟩)]
      100000000 [("a".data, "2.0.0".data)] "https://e.com/".data).2.1
      ⟨100, [("a".data, "1.0.0".data)]⟩ (by decide) (by decide))
    exact h.2.1,
   by
    have h := ((c4_cached_inventory
      [("https://e.com/index.yaml".data, ⟨100, [("a".data, "1.0.0".data)]⟩)]
      100000000 [("a".data, "2.0.0".data)] "https://e.com/".data).2.1
      ⟨100, [("a".data, "1.0.0".data)]⟩ (by decide) (by decide))
    exact h.2.2.2.1⟩

/-- Python's `max` over a strict greater-than test returns an element of
the list that no element strictly beats, and the result either is the
seed or strictly beats it; transitivity of the test over the involved
elements is the only assumption. -/
theorem listMaxBy_spec {α : Type} (gtB : α → α → Bool) :
    ∀ (xs : List α) (x : α),
      (∀ a ∈ x :: xs, ∀ b ∈ x :: xs, ∀ c ∈ x :: xs,
        gtB a b = true → gtB b c = true → gtB a c = true) →
      (∀ a ∈ x :: xs, gtB a a = false) →
      listMaxBy gtB x xs ∈ x :: xs ∧
      (listMaxBy gtB x xs = x ∨ gtB (listMaxBy gtB x xs) x = true) ∧
      (∀ w ∈ x :: xs, gtB w (listMaxBy gtB x xs) = false) := by
  intro xs
  induction xs with
  | nil =>
    intro x _ hirr
    exact ⟨List.mem_singleton.mpr rfl, Or.inl rfl,
      fun w hw => by
        rw [List.mem_singleton.mp hw]
        exact hirr x (List.mem_singleton.mpr rfl)⟩
  | cons y ys ih =>
    intro x htr hirr
    by_cases hyx : gtB y x = true
    · have hsub : ∀ a ∈ y :: ys, a ∈ x :: y :: ys := by
        intro a ha
        exact List.mem_cons_of_mem x ha
      have htr' : ∀ a ∈ y :: ys, ∀ b ∈ y :: ys, ∀ c ∈ y :: ys,
          gtB a b = true → gtB b c = true → gtB a c = true :=
        fun a ha b hb c hc => htr a (hsub a ha) b (hsub b hb) c (hsub c hc)
      have hirr' : ∀ a ∈ y :: ys, gtB a a = false :=
        fun a ha => hirr a (hsub a ha)
      obtain ⟨hmem, hdom, hmax⟩ := ih y htr' hirr'
      have hres : listMaxBy gtB x (y :: ys) = listMaxBy gtB y ys := by
        simp [listMaxBy, hyx]
      rw [hres]
      set m := listMaxBy gtB y ys with hm
      have hmmem : m ∈ x :: y :: ys := hsub m hmem
      refine ⟨hmmem, ?_, ?_⟩
      · right
        rcases hdom with h | h
        · rw [h]; exact hyx
        · exact htr m hmmem y (hsub y (List.mem_cons_self y ys)) x
            (List.mem_cons_self x (y :: ys)) h hyx
      · intro w hw
        rcases List.mem_cons.mp hw with hwx | hwin
        · rw [hwx]
          by_contra hwm
          rw [Bool.not_eq_false] at hwm
          have hym : gtB y m = false := hmax y (List.mem_cons_self y ys)
          have hymT : gtB y m = true :=
            htr y (hsub y (List.mem_cons_self y ys)) x
              (List.mem_cons_self x (y :: ys)) m hmmem hyx hwm
          rw [hym] at hymT
          exact Bool.false_ne_true hymT
        · exact hmax w hwin
    · have hyx' : gtB y x = false := Bool.not_eq_true _ |>.mp hyx
      -- the accumulator stays x; recurse on ys with seed x
      have hsub : ∀ a ∈ x :: ys, a ∈ x :: y :: ys := by
        intro a ha
        rcases List.mem_cons.mp ha with h | h
        · exact h ▸ List.mem_cons_self x (y :: ys)
        · exact List.mem_cons_of_mem x (List.mem_cons_of_mem y h)
      have htr' : ∀ a ∈ x :: ys, ∀ b ∈ x :: ys, ∀ c ∈ x :: ys,
          gtB a b = true → gtB b c = true → gtB a c = true :=
        fun a ha b hb c hc => htr a (hsub a ha) b (hsub b hb) c (hsub c hc)
      have hirr' : ∀ a ∈ x :: ys, gtB a a = false :=
        fun a ha => hirr a (hsub a ha)
      obtain ⟨hmem, hdom, hmax⟩ := ih x htr' hirr'
      have hres : listMaxBy gtB x (y :: ys) = listMaxBy gtB x ys := by
        simp [listMaxBy, hyx']
      rw [hres]
      set m := listMaxBy gtB x ys with hm
      have hmmem : m ∈ x :: y :: ys := hsub m hmem
      refine ⟨hmmem, hdom, ?_⟩
      intro w hw
      rcases List.mem_cons.mp hw with hwx | hwin
      · rw [hwx]
        exact hmax x (List.mem_cons_self x ys)
      · rcases List.mem_cons.mp hwin with hwy | hwys
        · rw [hwy]
          by_contra hwm
          rw [Bool.not_eq_false] at hwm
          rcases hdom with h | h
          · rw [h] at hwm
            rw [hyx'] at hwm
            exact Bool.false_ne_true hwm
          · have hyxT : gtB y x = true :=
              htr y (List.mem_cons_of_mem x (List.mem_cons_self y ys)) m
                hmmem x (List.mem_cons_self x (y :: ys)) hwm h
            rw [hyx'] at hyxT
            exact Bool.false_ne_true hyxT
        · exact hmax w (List.mem_cons_of_mem x hwys)

/-- C5 (counterexample): when the tag fetch fails with gidgethub's
`BadRequest` (an HTTP 4xx) or with a JSON decode error (malformed
response), `GitHubInventory.inventory` does *not* return `None`: the
`except` clause matches only `aiohttp.ClientError`, so the exception
escapes to the caller — refuting the claim that a failed retrieval
never lets an exception escape. -/
theorem c5_counterexample :
    githubInventorySemantic (.error .badRequest) =
      .error GitHubFetchError.badRequest ∧
    githubInventorySemantic (.error .badRequest) ≠ .ok none ∧
    githubInventorySemantic (.error .jsonDecodeError) =
      .error GitHubFetchError.jsonDecodeError ∧
    githubInventorySemantic (.error .jsonDecodeError) ≠ .ok none :=
  ⟨rfl, fun h => Except.noConfusion h, rfl, fun h => Except.noConfusion h⟩

/-- C5 (amended): `GitHubInventory.inventory` returns `None` when the
tag fetch fails with an `aiohttp.ClientError` (transport failure — the
only exception the `except` clause catches) and when zero tags validate
under the selected scheme; otherwise it returns the string form of a
maximum of the validated, parsed tags — an element no other validated
tag strictly beats under the scheme's ordering. An HTTP 4xx
(`BadRequest`) or a malformed response (JSON decode error) is *not*
caught and propagates out of `inventory`. -/
theorem c5_github_inventory_amended {α : Type} (isValid : List Char → Bool)
    (fromStr : List Char → α) (gtB : α → α → Bool) (toStr : α → List Char) :
    (githubInventory isValid fromStr gtB toStr (.error .clientError) = .ok none) ∧
    (∀ e, e ≠ GitHubFetchError.clientError →
      githubInventory isValid fromStr gtB toStr (.error e) = .error e) ∧
    (∀ tags, tags.filter isValid = [] →
      githubInventory isValid fromStr gtB toStr (.ok tags) = .ok none) ∧
    (∀ tags v vs, (tags.filter isValid).map fromStr = v :: vs →
      (∀ a ∈ v :: vs, ∀ b ∈ v :: vs, ∀ c ∈ v :: vs,
        gtB a b = true → gtB b c = true → gtB a c = true) →
      (∀ a ∈ v :: vs, gtB a a = false) →
      ∃ m, m ∈ v :: vs ∧
        githubInventory isValid fromStr gtB toStr (.ok tags) =
          .ok (some (toStr m)) ∧
        (∀ w ∈ v :: vs, gtB w m = false)) := by
  refine ⟨rfl, ?_, ?_, ?_⟩
  · intro e he
    cases e with
    | clientError => exact absurd rfl he
    | badRequest => rfl
    | jsonDecodeError => rfl
  · intro tags hempty
    simp [githubInventory, hempty]
  · intro tags v vs hmap htr hirr
    obtain ⟨hmem, _, hmax⟩ := listMaxBy_spec gtB vs v htr hirr
    exact ⟨listMaxBy gtB v vs, hmem, by simp [githubInventory, hmap], hmax⟩

/-- Witness for the amended C5 in semantic mode: a 4xx propagates, and
on a tag list with an invalid tag the maximum valid tag `1.19.0` is
returned with no other valid tag beating it. -/
theorem c5_github_inventory_amended_witness :
    githubInventory SemanticVersion.isValid semanticFromStrD
        SemanticVersion.gtB SemanticVersion.version
        (.error .badRequest) = .error GitHubFetchError.badRequest ∧
    ∃ m, m ∈ [semanticFromStrD "1.19.0".data, semanticFromStrD "1.18.0".data] ∧
      githubInventory SemanticVersion.isValid semanticFromStrD
          SemanticVersion.gtB SemanticVersion.version
          (.ok ["1.19.0".data, "20171120-1".data, "1.18.0".data]) =
        .ok (some m.version) ∧
      (∀ w ∈ [semanticFromStrD "1.19.0".data, semanticFromStrD "1.18.0".data],
        SemanticVersion.gtB w m = false) :=
  ⟨(c5_github_inventory_amended SemanticVersion.isValid semanticFromStrD
      SemanticVersion.gtB SemanticVersion.version).2.1
    GitHubFetchError.badRequest (by decide),
   (c5_github_inventory_amended SemanticVersion.isValid semanticFromStrD
      SemanticVersion.gtB SemanticVersion.version).2.2.2
    ["1.19.0".data, "20171120-1".data, "1.18.0".data]
    (semanticFromStrD "1.19.0".data) [semanticFromStrD "1.18.0".data]
    (by decide) (by decide) (by decide)⟩

end Neophile
